import Mathlib

/-!
Shallow embedding of the data-retrieval core of `intelliflow/api_ext.py`
(RheocerOS).  Pure Lean translations of:

* the record-level decode loops of `ApplicationExt.load_data` (raw CSV branch
  and Pandas branch),
* the input-validation / dispatch phase of `load_data`,
* the default output-dimension-spec / output-dim-link resolver of
  `AWSApplication._create_or_update_data_with_defaults`,
* the session save/restore protocol of the Glue-table branch of
  `AWSApplication._load_external_data`,
* the node-resolution helpers `ApplicationExt.data` / `timer` / `metric` /
  `alarm` and `ApplicationExt.__getitem__`.

Python exceptions are modelled with `Except String`; a raised exception is an
`.error` carrying (a rendering of) the message.
-/

namespace Rheoceros

/-- One decoded record (one line of a CSV partition, already split on the
column delimiter, as produced by `csv.reader`). -/
abbrev Row := List String

/-- Message of the Python `TypeError` raised by `limit + 1` when `limit` is
`None` (line `limit = limit if not data_header_exists else limit + 1`). -/
def pyTypeErrorAddMsg : String :=
  "TypeError: unsupported operand types for +: NoneType and int"

/-- Message of the Python `TypeError` raised by `limit - retrieved_so_far`
when `limit` is `None` (the `nrows` argument of `pd.read_csv`). -/
def pyTypeErrorSubMsg : String :=
  "TypeError: unsupported operand types for -: NoneType and int"

/-- Message of the Python `IndexError` raised by `pandas_df_list[0]` on an
empty list. -/
def pyIndexErrorMsg : String := "IndexError: list index out of range"

/-- The shared per-partition limit bookkeeping of the decode loops: given the
running record counter `r` and the rows of the current partition `p`, return
the (possibly end-truncated) rows to keep and whether iteration must stop.
Mirrors

    retrieved_so_far = retrieved_so_far + len(csv_data)
    stop = False
    if limit is not None and retrieved_so_far >= limit:
        stop = True
        if retrieved_so_far > limit:
            csv_data = csv_data[: limit - retrieved_so_far]
            retrieved_so_far = limit
-/
def truncStep : Option Nat → List Row → Nat → List Row × Bool
  | none, p, _ => (p, false)
  | some l, p, r =>
    if l ≤ r + p.length then
      (if l < r + p.length then p.take (p.length - (r + p.length - l)) else p, true)
    else (p, false)

/-- The merged-mode accumulation step of the raw CSV branch, with the
duplicate-header drop:

    if data_header_exists and len(all_data) > 0 and all_data[0] == csv_data[0]:
        all_data.extend(csv_data[1:])
    else:
        all_data.extend(csv_data)
-/
def mergeCsv (headerExists : Bool) (acc kept : List Row) : List Row :=
  if headerExists = true ∧ acc ≠ [] ∧ acc.head? = kept.head? then acc ++ kept.tail
  else acc ++ kept

/-- The partition loop of the raw CSV branch of `load_data` (lines 647-675).
Arguments: partitions still to read, the `all_data` accumulator, the running
record counter.  Returns the list of yielded frames together with the
partitions left unread when the loop broke. -/
def loadCsvAux (headerExists iterate : Bool) (limit : Option Nat) :
    List (List Row) → List Row → Nat → List (List Row) × List (List Row)
  | [], acc, _ => (if iterate then [] else [acc], [])
  | p :: rest, acc, r =>
    if p.isEmpty then loadCsvAux headerExists iterate limit rest acc r
    else if (truncStep limit p r).2 then
      (if iterate then [(truncStep limit p r).1]
       else [mergeCsv headerExists acc (truncStep limit p r).1], rest)
    else if iterate then
      ((truncStep limit p r).1
          :: (loadCsvAux headerExists iterate limit rest acc (r + p.length)).1,
       (loadCsvAux headerExists iterate limit rest acc (r + p.length)).2)
    else
      loadCsvAux headerExists iterate limit rest
        (mergeCsv headerExists acc (truncStep limit p r).1) (r + p.length)

/-- The raw CSV branch of `load_data` (lines 639-679), including the header
adjustment `limit = limit if not data_header_exists else limit + 1`, which in
Python raises a `TypeError` when `limit` is `None` and a header is declared. -/
def loadCsvData (parts : List (List Row)) (limit : Option Nat)
    (headerExists iterate : Bool) : Except String (List (List Row)) :=
  if headerExists then
    match limit with
    | some l => .ok (loadCsvAux headerExists iterate (some (l + 1)) parts [] 0).1
    | none => .error pyTypeErrorAddMsg
  else .ok (loadCsvAux headerExists iterate limit parts [] 0).1

/-- The per-partition read of the Pandas branch: for the CSV format the read
itself is bounded (`nrows=limit - retrieved_so_far`, a `TypeError` when
`limit` is `None`); for Parquet/JSON the partition is read in full. -/
def pandasRead (isCsv : Bool) (limit : Option Nat) (r : Nat) (p : List Row) :
    Except String (List Row) :=
  if isCsv then
    match limit with
    | none => .error pyTypeErrorSubMsg
    | some l => .ok (p.take (l - r))
  else .ok p

/-- The partition loop of the Pandas branch of `load_data` (lines 502-545).
Returns the accumulated `pandas_df_list` (which is also, frame by frame, what
streaming mode yields) and the partitions left unread when the loop broke. -/
def loadPandasAux (isCsv : Bool) (limit : Option Nat) :
    List (List Row) → List (List Row) → Nat →
    Except String (List (List Row) × List (List Row))
  | [], dfs, _ => .ok (dfs, [])
  | p :: rest, dfs, r =>
    if p.isEmpty then loadPandasAux isCsv limit rest dfs r
    else
      match pandasRead isCsv limit r p with
      | .error e => .error e
      | .ok df =>
        if (truncStep limit df r).2 then .ok (dfs ++ [(truncStep limit df r).1], rest)
        else loadPandasAux isCsv limit rest (dfs ++ [(truncStep limit df r).1]) (r + df.length)

/-- The Pandas branch of `load_data` including the final merge
`pd.concat(pandas_df_list, ignore_index=True) if len(pandas_df_list) > 1 else
pandas_df_list[0]` (an `IndexError` on an empty list). -/
def loadPandasData (isCsv : Bool) (parts : List (List Row)) (limit : Option Nat)
    (iterate : Bool) : Except String (List (List Row)) :=
  match loadPandasAux isCsv limit parts [] 0 with
  | .error e => .error e
  | .ok (dfs, _) =>
    if iterate then .ok dfs
    else
      match dfs with
      | [] => .error pyIndexErrorMsg
      | [df] => .ok [df]
      | d :: ds => .ok [(d :: ds).flatten]

lemma truncStep_stop (l r : Nat) (p : List Row) (h : l ≤ r + p.length) (hr : r < l) :
    truncStep (some l) p r = (p.take (l - r), true) := by
  simp only [truncStep]
  rw [if_pos h]
  by_cases hlt : l < r + p.length
  · rw [if_pos hlt]
    have he : p.length - (r + p.length - l) = l - r := by omega
    rw [he]
  · rw [if_neg hlt]
    have hl : l - r = p.length := by omega
    rw [hl, List.take_length]

lemma truncStep_go (l r : Nat) (p : List Row) (h : r + p.length < l) :
    truncStep (some l) p r = (p, false) := by
  simp only [truncStep]
  rw [if_neg (by omega)]

lemma mergeCsv_noheader (acc kept : List Row) : mergeCsv false acc kept = acc ++ kept := by
  simp [mergeCsv]

lemma loadCsvAux_noheader (N : Nat) (parts : List (List Row)) :
    ∀ (acc : List Row) (r : Nat), r < N →
      (loadCsvAux false false (some N) parts acc r).1
        = [acc ++ parts.flatten.take (N - r)] := by
  induction parts with
  | nil =>
    intro acc r _
    simp [loadCsvAux]
  | cons p rest ih =>
    intro acc r hr
    by_cases hp : p.isEmpty = true
    · obtain rfl : p = [] := List.isEmpty_iff.mp hp
      simpa [loadCsvAux] using ih acc r hr
    · by_cases hstop : N ≤ r + p.length
      · have ht := truncStep_stop N r p hstop hr
        simp only [loadCsvAux, hp, Bool.false_eq_true, if_false, ht, if_true,
          mergeCsv_noheader, List.flatten_cons]
        rw [List.take_append_eq_append_take]
        have h2 : N - r - p.length = 0 := by omega
        rw [h2, List.take_zero, List.append_nil]
      · have ht := truncStep_go N r p (by omega)
        simp only [loadCsvAux, hp, Bool.false_eq_true, if_false, ht,
          mergeCsv_noheader, List.flatten_cons]
        rw [ih (acc ++ p) (r + p.length) (by omega)]
        rw [List.take_append_eq_append_take]
        have h3 : p.take (N - r) = p := List.take_of_length_le (by omega)
        have h4 : N - r - p.length = N - (r + p.length) := by omega
        rw [h3, h4, List.append_assoc]

lemma loadCsvAux_unread (headerExists iterate : Bool) (L : Nat) (extra : List (List Row)) :
    ∀ (parts : List (List Row)) (acc : List Row) (r : Nat), r < L →
      L ≤ r + parts.flatten.length →
      extra <:+ (loadCsvAux headerExists iterate (some L) (parts ++ extra) acc r).2 := by
  intro parts
  induction parts with
  | nil =>
    intro acc r h1 h2
    simp at h2
    omega
  | cons p rest ih =>
    intro acc r h1 h2
    by_cases hp : p.isEmpty = true
    · obtain rfl : p = [] := List.isEmpty_iff.mp hp
      simp only [List.cons_append, loadCsvAux, List.isEmpty_nil, if_true]
      exact ih acc r h1 (by simpa using h2)
    · by_cases hstop : L ≤ r + p.length
      · have ht := truncStep_stop L r p hstop h1
        simp only [List.cons_append, loadCsvAux, hp, Bool.false_eq_true, if_false, ht, if_true]
        exact List.suffix_append rest extra
      · have ht := truncStep_go L r p (by omega)
        have h2' : L ≤ r + p.length + rest.flatten.length := by
          rw [List.flatten_cons, List.length_append] at h2
          omega
        simp only [List.cons_append, loadCsvAux, hp, Bool.false_eq_true, if_false, ht]
        split
        · exact ih acc (r + p.length) (by omega) h2'
        · exact ih (mergeCsv headerExists acc p) (r + p.length) (by omega) h2'

lemma pandasStepStop (isCsv : Bool) (N r : Nat) (p : List Row)
    (hr : r < N) (hstop : N ≤ r + p.length) :
    ∃ df, pandasRead isCsv (some N) r p = .ok df
      ∧ truncStep (some N) df r = (p.take (N - r), true) := by
  cases isCsv with
  | false =>
    exact ⟨p, rfl, truncStep_stop N r p hstop hr⟩
  | true =>
    refine ⟨p.take (N - r), rfl, ?_⟩
    have hlen : (p.take (N - r)).length = N - r := by
      rw [List.length_take]
      omega
    have := truncStep_stop N r (p.take (N - r)) (by omega) hr
    rw [this, List.take_take]
    simp

lemma pandasStepGo (isCsv : Bool) (N r : Nat) (p : List Row)
    (hr : r < N) (hgo : r + p.length < N) :
    pandasRead isCsv (some N) r p = .ok p
      ∧ truncStep (some N) p r = (p, false) := by
  constructor
  · cases isCsv with
    | false => rfl
    | true =>
      show Except.ok (p.take (N - r)) = Except.ok p
      rw [List.take_of_length_le (by omega)]
  · exact truncStep_go N r p (by omega)

lemma loadPandasAux_ok (isCsv : Bool) (N : Nat) :
    ∀ (parts dfs : List (List Row)) (r : Nat), r < N →
      ∃ out, loadPandasAux isCsv (some N) parts dfs r = .ok out
        ∧ out.1.flatten = dfs.flatten ++ parts.flatten.take (N - r) := by
  intro parts
  induction parts with
  | nil =>
    intro dfs r _
    exact ⟨(dfs, []), rfl, by simp⟩
  | cons p rest ih =>
    intro dfs r hr
    by_cases hp : p.isEmpty = true
    · obtain rfl : p = [] := List.isEmpty_iff.mp hp
      simpa [loadPandasAux] using ih dfs r hr
    · by_cases hstop : N ≤ r + p.length
      · obtain ⟨df, hdf, htr⟩ := pandasStepStop isCsv N r p hr hstop
        refine ⟨(dfs ++ [p.take (N - r)], rest), ?_, ?_⟩
        · simp [loadPandasAux, hp, hdf, htr]
        · simp only [List.flatten_append, List.flatten_cons, List.flatten_nil,
            List.append_nil]
          rw [List.take_append_eq_append_take]
          have h2 : N - r - p.length = 0 := by omega
          rw [h2, List.take_zero, List.append_nil]
      · obtain ⟨hdf, htr⟩ := pandasStepGo isCsv N r p hr (by omega)
        obtain ⟨out, hout, hflat⟩ := ih (dfs ++ [p]) (r + p.length) (by omega)
        refine ⟨out, ?_, ?_⟩
        · simp [loadPandasAux, hp, hdf, htr, hout]
        · rw [hflat]
          simp only [List.flatten_append, List.flatten_cons, List.flatten_nil,
            List.append_nil]
          rw [List.take_append_eq_append_take]
          have h3 : p.take (N - r) = p := List.take_of_length_le (by omega)
          have h4 : N - r - p.length = N - (r + p.length) := by omega
          rw [h3, h4, List.append_assoc]

lemma loadPandasAux_unread (isCsv : Bool) (L : Nat) (extra : List (List Row)) :
    ∀ (parts dfs : List (List Row)) (r : Nat), r < L →
      L ≤ r + parts.flatten.length →
      ∃ out, loadPandasAux isCsv (some L) (parts ++ extra) dfs r = .ok out
        ∧ extra <:+ out.2 := by
  intro parts
  induction parts with
  | nil =>
    intro dfs r h1 h2
    simp at h2
    omega
  | cons p rest ih =>
    intro dfs r h1 h2
    by_cases hp : p.isEmpty = true
    · obtain rfl : p = [] := List.isEmpty_iff.mp hp
      have := ih dfs r h1 (by simpa using h2)
      simpa [loadPandasAux] using this
    · by_cases hstop : L ≤ r + p.length
      · obtain ⟨df, hdf, htr⟩ := pandasStepStop isCsv L r p h1 hstop
        refine ⟨(dfs ++ [p.take (L - r)], rest ++ extra), ?_, ?_⟩
        · simp [loadPandasAux, hp, hdf, htr]
        · exact List.suffix_append rest extra
      · obtain ⟨hdf, htr⟩ := pandasStepGo isCsv L r p h1 (by omega)
        have h2' : L ≤ r + p.length + rest.flatten.length := by
          rw [List.flatten_cons, List.length_append] at h2
          omega
        obtain ⟨out, hout, hsfx⟩ := ih (dfs ++ [p]) (r + p.length) (by omega) h2'
        refine ⟨out, ?_, hsfx⟩
        simp [loadPandasAux, hp, hdf, htr, hout]

lemma loadPandasData_merged (isCsv : Bool) (parts : List (List Row)) (N : Nat)
    (hN : 0 < N) (hne : parts.flatten ≠ []) :
    loadPandasData isCsv parts (some N) false = .ok [parts.flatten.take N] := by
  obtain ⟨out, hout, hflat⟩ := loadPandasAux_ok isCsv N parts [] 0 hN
  obtain ⟨dfs, unread⟩ := out
  simp only [List.flatten_nil, List.nil_append, Nat.sub_zero] at hflat
  have htake : parts.flatten.take N ≠ [] := by
    cases hfl : parts.flatten with
    | nil => exact absurd hfl hne
    | cons a l =>
      cases N with
      | zero => omega
      | succ n => simp
  cases dfs with
  | nil => exact absurd hflat.symm (by simpa using htake)
  | cons d ds =>
    cases ds with
    | nil =>
      have hd : d = parts.flatten.take N := by simpa using hflat
      simp [loadPandasData, hout, hd]
    | cons d2 ds2 =>
      simp only [loadPandasData, hout, Bool.false_eq_true, if_false]
      rw [hflat]

/-- Claim C1, amended.  For merged (`iterate=False`) loading with a positive
limit `N`: in the Pandas branch (given at least one nonempty partition, for
both the bounded CSV read and the full Parquet/JSON read) and in the raw
textual branch when no header row is declared, the single merged frame is
exactly the first `min(N, total_available_rows)` rows of the concatenated
partitions — so the boundary partition is truncated from the end, never
dropped — and once the running counter reaches the limit no further
partitions are read (any partitions after the stopping point are left in the
unread remainder untouched).  The original claim's row-count formula fails
when a header row is declared in the raw textual branch (see the
counterexample): duplicate header rows dropped while merging still count
against the (header-adjusted) limit. -/
theorem c1_amended (parts extra : List (List Row)) (N : Nat) (hN : 0 < N) :
    loadCsvData parts (some N) false false = .ok [parts.flatten.take N]
    ∧ (parts.flatten ≠ [] →
        loadPandasData true parts (some N) false = .ok [parts.flatten.take N]
        ∧ loadPandasData false parts (some N) false = .ok [parts.flatten.take N])
    ∧ (N ≤ parts.flatten.length →
        extra <:+ (loadCsvAux false false (some N) (parts ++ extra) [] 0).2
        ∧ ∀ out, loadPandasAux true (some N) (parts ++ extra) [] 0 = .ok out →
            extra <:+ out.2) := by
  refine ⟨?_,
    fun hne => ⟨loadPandasData_merged true parts N hN hne,
                loadPandasData_merged false parts N hN hne⟩,
    fun hlen => ⟨?_, ?_⟩⟩
  · have h := loadCsvAux_noheader N parts [] 0 hN
    simp only [Nat.sub_zero, List.nil_append] at h
    simp [loadCsvData, h]
  · exact loadCsvAux_unread false false N extra parts [] 0 hN (by simpa using hlen)
  · intro out hout
    obtain ⟨out2, hout2, hsfx⟩ :=
      loadPandasAux_unread true N extra parts [] 0 hN (by simpa using hlen)
    have h := hout.symm.trans hout2
    rw [Except.ok.injEq] at h
    rw [h]
    exact hsfx

/-- Witness for `c1_amended` at concrete inputs: two partitions of two rows,
limit 3, a third partition behind the stopping point. -/
theorem c1_amended_witness :
    loadCsvData [[["a"], ["b"]], [["c"], ["d"]]] (some 3) false false
      = .ok [[["a"], ["b"], ["c"]]]
    ∧ loadPandasData true [[["a"], ["b"]], [["c"], ["d"]]] (some 3) false
      = .ok [[["a"], ["b"], ["c"]]]
    ∧ [[["e"]]] <:+ (loadCsvAux false false (some 3)
        ([[["a"], ["b"]], [["c"], ["d"]]] ++ [[["e"]]]) [] 0).2 := by
  have h := c1_amended [[["a"], ["b"]], [["c"], ["d"]]] [[["e"]]] 3 (by decide)
  exact ⟨h.1, (h.2.1 (by decide)).1, (h.2.2 (by decide)).1⟩

/-- Claim C1 as stated is false on the raw textual branch with a declared
header row: three partitions of one header row plus one data row each, limit
`N = 4`, merged mode.  The code reads the first two partitions in full and
truncates the third down to its bare header (which is then dropped as a
duplicate), yielding a merged frame of one header row plus two data rows.
Two data rows is not `min(4, 3)` (counting available data rows), and three
total rows is not `min(4, 6)` (counting raw rows): the duplicate header rows
dropped during merging were still counted against the limit. -/
theorem c1_counterexample :
    loadCsvData [[["h"], ["1"]], [["h"], ["2"]], [["h"], ["3"]]] (some 4) true false
      = .ok [[["h"], ["1"], ["2"]]]
    ∧ ([["h"], ["1"], ["2"]] : List Row).length - 1 ≠ min 4 3
    ∧ ([["h"], ["1"], ["2"]] : List Row).length ≠ min 4 6 := by
  exact ⟨rfl, by decide, by decide⟩

/-- Claim C6: the exact spec scenario — two textual partitions with a declared
header and `limit=None`, merged mode — hits a `TypeError` in the code (the
unconditional `limit + 1` header adjustment with `limit is None`) instead of
returning the two deduplicated data rows; the second conjunct shows the
header-deduplication logic the spec describes is reached, and behaves as
described, as soon as an integer limit is supplied. -/
theorem c6_header_nolimit_typeerror :
    loadCsvData [[["h", "v"], ["1", "a"]], [["h", "v"], ["2", "b"]]] none true false
      = .error pyTypeErrorAddMsg
    ∧ loadCsvData [[["h", "v"], ["1", "a"]], [["h", "v"], ["2", "b"]]] (some 100) true false
      = .ok [[["h", "v"], ["1", "a"], ["2", "b"]]] := by
  exact ⟨rfl, rfl⟩

/-!
Dimension-link resolver of `_create_or_update_data_with_defaults`
(lines 975-1034).  A signal's hierarchical `DimensionSpec` is embedded as its
flattened, declaration-ordered list of dimensions (mirroring the code's own
`get_flattened_dimension_map()` iteration); each dimension carries the
material (already-literal) value its variant holds in the signal's filter
spec, if any (`dim_variant.is_material_value()` / `dim_variant.value`).
-/

/-- One (flattened) dimension of a signal, with the literal value bound to it
in the signal's dimension filter when that variant is material. -/
structure SigDim where
  name : String
  materialValue : Option String
deriving DecidableEq

/-- The slice of a `Signal` the resolver consumes: its alias, whether it is a
dependent signal (`Signal.is_dependent`: reference/nearest, etc.), and its
flattened dimension spec in declaration order. -/
structure Signal where
  sigAlias : Option String
  isDependent : Bool
  dims : List SigDim
deriving DecidableEq

/-- `Signal.clone(alias)`: same signal under a new alias (the resolver only
ever clones with `None`). -/
def cloneSignal (s : Signal) (newAlias : Option String) : Signal :=
  { s with sigAlias := newAlias }

/-- `DimensionSpec.find_dimension_by_name` on a signal's spec. -/
def findDim (s : Signal) (dimName : String) : Option SigDim :=
  s.dims.find? (fun x => x.name == dimName)

/-- Right-hand side of an output dimension link: either a literal value
(`dim_variant.value`) or a `SignalDimensionTuple` referencing a dimension of
a signal. -/
inductive DimLinkSource where
  | literal (v : String)
  | dimRef (sig : Signal) (dimName : String)
deriving DecidableEq

/-- One `output_dim_links` entry `(dim_name, mapper, source)`; the resolver
always uses the identity mapper `None`. -/
structure OutputDimLink where
  dimName : String
  mapper : Option Unit
  source : DimLinkSource
deriving DecidableEq

/-- Rendering of an optional alias inside an error message. -/
def aliasText : Option String → String
  | some a => a
  | none => "None"

/-- The `ValueError` message raised when an unmaterialized dimension of a
dependent first input cannot be linked from any independent input; it names
the offending dimension, the first input's alias and the output id. -/
def unlinkableDimMsg (dimName : String) (firstAlias : Option String) (outId : String) :
    String :=
  "Cannot link unmaterialized dimension " ++ dimName ++ " from dependent input "
    ++ aliasText firstAlias ++ " to output " ++ outId

/-- The dependent-first-input link loop (lines 1006-1030): material dimensions
become literal assignments; non-material dimensions are linked from the first
independent signal exposing a same-named dimension, scanning in declaration
order; otherwise a `ValueError` is raised. -/
def linkDependentDims (independents : List Signal) (firstAlias : Option String)
    (outId : String) : List SigDim → Except String (List OutputDimLink)
  | [] => .ok []
  | d :: rest =>
    match d.materialValue with
    | some v =>
      match linkDependentDims independents firstAlias outId rest with
      | .error e => .error e
      | .ok ls => .ok (⟨d.name, none, .literal v⟩ :: ls)
    | none =>
      match independents.find? (fun s => (findDim s d.name).isSome) with
      | some other =>
        match linkDependentDims independents firstAlias outId rest with
        | .error e => .error e
        | .ok ls => .ok (⟨d.name, none, .dimRef (cloneSignal other none) d.name⟩ :: ls)
      | none => .error (unlinkableDimMsg d.name firstAlias outId)

/-- The defaulting block of `_create_or_update_data_with_defaults` for calls
with `output_dimension_spec=None` (lines 975-1034): the output spec defaults
to the first input's spec; when no explicit `output_dim_links` are given
either, links default to identity links onto the first input if it is
independent, and to the literal/independent-scan scheme of
`linkDependentDims` if it is dependent. -/
def resolveDefaults (inputs : List Signal) (explicitLinks : Option (List OutputDimLink))
    (outId : String) : Except String (List String × List OutputDimLink) :=
  match inputs with
  | [] => .ok ([], [])
  | first :: rest =>
    match explicitLinks with
    | some ls => .ok (first.dims.map (fun d => d.name), ls)
    | none =>
      if first.isDependent then
        match linkDependentDims ((first :: rest).filter (fun s => !s.isDependent))
            first.sigAlias outId (cloneSignal first none).dims with
        | .error e => .error e
        | .ok ls => .ok (first.dims.map (fun d => d.name), ls)
      else
        .ok (first.dims.map (fun d => d.name),
          (cloneSignal first none).dims.map
            (fun d => ⟨d.name, none, .dimRef (cloneSignal first none) d.name⟩))

/-- Characterization of the link `linkDependentDims` produces for one
dimension, when it succeeds on that dimension. -/
def expectedLink (independents : List Signal) (d : SigDim) : Option OutputDimLink :=
  match d.materialValue with
  | some v => some ⟨d.name, none, .literal v⟩
  | none =>
    match independents.find? (fun s => (findDim s d.name).isSome) with
    | some other => some ⟨d.name, none, .dimRef (cloneSignal other none) d.name⟩
    | none => none

lemma expectedLink_name (independents : List Signal) (d : SigDim) (l : OutputDimLink)
    (h : expectedLink independents d = some l) : l.dimName = d.name := by
  unfold expectedLink at h
  cases hm : d.materialValue with
  | some v =>
    rw [hm] at h
    cases h
    rfl
  | none =>
    rw [hm] at h
    cases hf : independents.find? (fun s => (findDim s d.name).isSome) with
    | some other =>
      rw [hf] at h
      cases h
      rfl
    | none =>
      rw [hf] at h
      cases h

lemma linkDependentDims_ok (independents : List Signal) (al : Option String)
    (outId : String) :
    ∀ (dims : List SigDim) (ls : List OutputDimLink),
      linkDependentDims independents al outId dims = .ok ls →
      List.Forall₂ (fun d l => expectedLink independents d = some l) dims ls := by
  intro dims
  induction dims with
  | nil =>
    intro ls h
    simp only [linkDependentDims] at h
    cases h
    constructor
  | cons d rest ih =>
    intro ls h
    cases hm : d.materialValue with
    | some v =>
      rw [linkDependentDims, hm] at h
      cases hrec : linkDependentDims independents al outId rest with
      | error e => rw [hrec] at h; cases h
      | ok ls2 =>
        rw [hrec] at h
        cases h
        exact List.Forall₂.cons (by simp [expectedLink, hm]) (ih ls2 hrec)
    | none =>
      rw [linkDependentDims, hm] at h
      cases hf : independents.find? (fun s => (findDim s d.name).isSome) with
      | some other =>
        rw [hf] at h
        cases hrec : linkDependentDims independents al outId rest with
        | error e => rw [hrec] at h; cases h
        | ok ls2 =>
          rw [hrec] at h
          cases h
          exact List.Forall₂.cons (by simp [expectedLink, hm, hf]) (ih ls2 hrec)
      | none =>
        rw [hf] at h
        cases h

lemma forall₂_exists_left {α β : Type} {R : α → β → Prop} :
    ∀ {xs : List α} {ys : List β}, List.Forall₂ R xs ys → ∀ x ∈ xs, ∃ y ∈ ys, R x y := by
  intro xs ys h
  induction h with
  | nil => intro x hx; cases hx
  | cons hR _ ih =>
    intro x hx
    rcases List.mem_cons.mp hx with rfl | hx2
    · exact ⟨_, List.mem_cons_self _ _, hR⟩
    · obtain ⟨y, hy, hxy⟩ := ih x hx2
      exact ⟨y, List.mem_cons_of_mem _ hy, hxy⟩

lemma forall₂_exists_right {α β : Type} {R : α → β → Prop} :
    ∀ {xs : List α} {ys : List β}, List.Forall₂ R xs ys → ∀ y ∈ ys, ∃ x ∈ xs, R x y := by
  intro xs ys h
  induction h with
  | nil => intro y hy; cases hy
  | cons hR _ ih =>
    intro y hy
    rcases List.mem_cons.mp hy with rfl | hy2
    · exact ⟨_, List.mem_cons_self _ _, hR⟩
    · obtain ⟨x, hx, hxy⟩ := ih y hy2
      exact ⟨x, List.mem_cons_of_mem _ hx, hxy⟩

lemma forall₂_expected_unique (independents : List Signal) :
    ∀ {dims : List SigDim} {ls : List OutputDimLink},
      List.Forall₂ (fun d l => expectedLink independents d = some l) dims ls →
      (dims.map SigDim.name).Nodup →
      ∀ d ∈ dims, ∀ l ∈ ls, l.dimName = d.name → expectedLink independents d = some l := by
  intro dims ls h
  induction h with
  | nil => intro _ d hd; cases hd
  | @cons d0 l0 restd restl hR hrest ih =>
    intro hnodup d hd l hl hname
    have hnodup2 : (d0.name :: restd.map SigDim.name).Nodup := by simpa using hnodup
    have hnd : d0.name ∉ restd.map SigDim.name ∧ (restd.map SigDim.name).Nodup :=
      List.nodup_cons.mp hnodup2
    rcases List.mem_cons.mp hd with rfl | hd2
    · rcases List.mem_cons.mp hl with rfl | hl2
      · exact hR
      · exfalso
        obtain ⟨d2, hd2m, hR2⟩ := forall₂_exists_right hrest l hl2
        have : l.dimName = d2.name := expectedLink_name independents d2 l hR2
        have hmem : d.name ∈ restd.map SigDim.name := by
          rw [← hname, this]
          exact List.mem_map_of_mem SigDim.name hd2m
        exact hnd.1 hmem
    · rcases List.mem_cons.mp hl with rfl | hl2
      · exfalso
        have : l.dimName = d0.name := expectedLink_name independents d0 l hR
        have hmem : d0.name ∈ restd.map SigDim.name := by
          rw [← this, hname]
          exact List.mem_map_of_mem SigDim.name hd2
        exact hnd.1 hmem
      · exact ih hnd.2 d hd2 l hl2 hname

lemma linkDependentDims_fails (independents : List Signal) (al : Option String)
    (outId : String) :
    ∀ (dims : List SigDim),
      (∃ d ∈ dims, d.materialValue = none
        ∧ independents.find? (fun s => (findDim s d.name).isSome) = none) →
      ∃ d2 ∈ dims, d2.materialValue = none
        ∧ independents.find? (fun s => (findDim s d2.name).isSome) = none
        ∧ linkDependentDims independents al outId dims
            = .error (unlinkableDimMsg d2.name al outId) := by
  intro dims
  induction dims with
  | nil =>
    rintro ⟨d, hd, _⟩
    cases hd
  | cons d rest ih =>
    rintro ⟨df, hdf, hnm, hnf⟩
    cases hm : d.materialValue with
    | some v =>
      have hdf2 : df ∈ rest := by
        rcases List.mem_cons.mp hdf with rfl | h2
        · rw [hm] at hnm; cases hnm
        · exact h2
      obtain ⟨d2, hd2, h2nm, h2nf, herr⟩ := ih ⟨df, hdf2, hnm, hnf⟩
      refine ⟨d2, List.mem_cons_of_mem _ hd2, h2nm, h2nf, ?_⟩
      rw [linkDependentDims, hm, herr]
    | none =>
      cases hf : independents.find? (fun s => (findDim s d.name).isSome) with
      | some other =>
        have hdf2 : df ∈ rest := by
          rcases List.mem_cons.mp hdf with rfl | h2
          · rw [hf] at hnf; cases hnf
          · exact h2
        obtain ⟨d2, hd2, h2nm, h2nf, herr⟩ := ih ⟨df, hdf2, hnm, hnf⟩
        refine ⟨d2, List.mem_cons_of_mem _ hd2, h2nm, h2nf, ?_⟩
        rw [linkDependentDims, hm, hf, herr]
      | none =>
        refine ⟨d, List.mem_cons_self _ _, hm, hf, ?_⟩
        rw [linkDependentDims, hm, hf]

lemma resolveDefaults_dependent_ok (first : Signal) (rest : List Signal) (outId : String)
    (spec2 : List String) (links : List OutputDimLink)
    (hdep : first.isDependent = true)
    (hok : resolveDefaults (first :: rest) none outId = .ok (spec2, links)) :
    linkDependentDims ((first :: rest).filter (fun s => !s.isDependent))
      first.sigAlias outId first.dims = .ok links := by
  simp only [resolveDefaults, hdep, if_true, cloneSignal] at hok
  cases hcall : linkDependentDims ((first :: rest).filter (fun s => !s.isDependent))
      first.sigAlias outId first.dims with
  | error e =>
    rw [hcall] at hok
    cases hok
  | ok ls =>
    rw [hcall] at hok
    rw [Except.ok.injEq, Prod.mk.injEq] at hok
    rw [hok.2]

/-- Claim C3.  When the first input of a `create_data` call (no explicit
output spec, no explicit links) is dependent, every output dimension holding
a literal, already-material value on that first input is linked to the output
as a literal copy of that value (`DimLinkSource.literal`), and the link
produced for that dimension is never a live `dimRef` reference to the
dependent input (nor to anything else). -/
theorem c3_literal_copy (first : Signal) (rest : List Signal) (outId : String)
    (d : SigDim) (v : String) (spec2 : List String) (links : List OutputDimLink)
    (hdep : first.isDependent = true)
    (hd : d ∈ first.dims) (hv : d.materialValue = some v)
    (hnodup : (first.dims.map SigDim.name).Nodup)
    (hok : resolveDefaults (first :: rest) none outId = .ok (spec2, links)) :
    (⟨d.name, none, .literal v⟩ : OutputDimLink) ∈ links
    ∧ ∀ l ∈ links, l.dimName = d.name → l = ⟨d.name, none, .literal v⟩ := by
  have hlk := resolveDefaults_dependent_ok first rest outId spec2 links hdep hok
  have hfa := linkDependentDims_ok _ first.sigAlias outId first.dims links hlk
  have hexp : expectedLink ((first :: rest).filter (fun s => !s.isDependent)) d
      = some ⟨d.name, none, .literal v⟩ := by
    simp [expectedLink, hv]
  constructor
  · obtain ⟨l, hl, hR⟩ := forall₂_exists_left hfa d hd
    rw [hexp] at hR
    cases hR
    exact hl
  · intro l hl hname
    have := forall₂_expected_unique _ hfa hnodup d hd l hl hname
    rw [hexp] at this
    cases this
    rfl

/-- Witness for `c3_literal_copy`: a dependent first input with material
dimension `region = NA` and open dimension `day`, plus one independent input
exposing `day`; the resolver assigns `region` as the literal `NA`. -/
theorem c3_witness :
    (⟨"region", none, .literal "NA"⟩ : OutputDimLink)
      ∈ [⟨"region", none, .literal "NA"⟩,
         ⟨"day", none, .dimRef (cloneSignal ⟨some "ind", false, [⟨"day", none⟩]⟩ none) "day"⟩] :=
  (c3_literal_copy ⟨some "dep", true, [⟨"region", some "NA"⟩, ⟨"day", none⟩]⟩
    [⟨some "ind", false, [⟨"day", none⟩]⟩] "out" ⟨"region", some "NA"⟩ "NA"
    ["region", "day"]
    [⟨"region", none, .literal "NA"⟩,
     ⟨"day", none, .dimRef (cloneSignal ⟨some "ind", false, [⟨"day", none⟩]⟩ none) "day"⟩]
    rfl (by decide) rfl (by decide) rfl).1

/-- Claim C4.  When the first input is dependent, each non-material output
dimension is linked to the first independent input (scanning the inputs in
declaration order, `List.find?` over the declaration-ordered filter of
independent signals) that exposes a same-named dimension; when no independent
input exposes it, resolution fails with the `ValueError` naming the offending
dimension rather than succeeding silently. -/
theorem c4_dependent_scan (first : Signal) (rest : List Signal) (outId : String)
    (d : SigDim)
    (hdep : first.isDependent = true)
    (hd : d ∈ first.dims) (hnm : d.materialValue = none) :
    (∀ other spec2 links,
        ((first :: rest).filter (fun s => !s.isDependent)).find?
            (fun s => (findDim s d.name).isSome) = some other →
        resolveDefaults (first :: rest) none outId = .ok (spec2, links) →
        (⟨d.name, none, .dimRef (cloneSignal other none) d.name⟩ : OutputDimLink) ∈ links)
    ∧ ((∀ s ∈ (first :: rest).filter (fun s => !s.isDependent), findDim s d.name = none) →
        ∃ d2 ∈ first.dims, d2.materialValue = none
          ∧ resolveDefaults (first :: rest) none outId
              = .error (unlinkableDimMsg d2.name first.sigAlias outId)) := by
  constructor
  · intro other spec2 links hfind hok
    have hlk := resolveDefaults_dependent_ok first rest outId spec2 links hdep hok
    have hfa := linkDependentDims_ok _ first.sigAlias outId first.dims links hlk
    have hexp : expectedLink ((first :: rest).filter (fun s => !s.isDependent)) d
        = some ⟨d.name, none, .dimRef (cloneSignal other none) d.name⟩ := by
      simp [expectedLink, hnm, hfind]
    obtain ⟨l, hl, hR⟩ := forall₂_exists_left hfa d hd
    rw [hexp] at hR
    cases hR
    exact hl
  · intro hnone
    have hfnone : ((first :: rest).filter (fun s => !s.isDependent)).find?
        (fun s => (findDim s d.name).isSome) = none := by
      rw [List.find?_eq_none]
      intro s hs
      rw [hnone s hs]
      simp
    obtain ⟨d2, hd2, h2nm, _, herr⟩ :=
      linkDependentDims_fails ((first :: rest).filter (fun s => !s.isDependent))
        first.sigAlias outId first.dims ⟨d, hd, hnm, hfnone⟩
    refine ⟨d2, hd2, h2nm, ?_⟩
    simp only [resolveDefaults, hdep, if_true, cloneSignal]
    rw [herr]

/-- Witness for `c4_dependent_scan`: a dependent first input whose only
dimension `day` is open, and one independent input exposing `day`; the
resolver links `day` to that independent input. -/
theorem c4_witness :
    (⟨"day", none, .dimRef (cloneSignal ⟨some "ind", false, [⟨"day", none⟩]⟩ none) "day"⟩
        : OutputDimLink)
      ∈ [⟨"day", none, .dimRef (cloneSignal ⟨some "ind", false, [⟨"day", none⟩]⟩ none) "day"⟩] :=
  (c4_dependent_scan ⟨some "dep", true, [⟨"day", none⟩]⟩
      [⟨some "ind", false, [⟨"day", none⟩]⟩] "out" ⟨"day", none⟩ rfl (by decide) rfl).1
    ⟨some "ind", false, [⟨"day", none⟩]⟩ ["day"]
    [⟨"day", none, .dimRef (cloneSignal ⟨some "ind", false, [⟨"day", none⟩]⟩ none) "day"⟩]
    rfl rfl

/-- Claim C5.  When the first input is independent and no explicit output
dimension spec is given, the inferred output spec is the first input's spec
(names, structure-flattened, in declaration order) — whether or not explicit
links are supplied — and when no explicit `output_dim_links` are given either,
every output dimension is linked with the identity mapper (`None`) to the
same-named dimension of (the alias-stripped clone of) that first input. -/
theorem c5_independent_identity (first : Signal) (rest : List Signal) (outId : String)
    (hind : first.isDependent = false) :
    (∀ ls, resolveDefaults (first :: rest) (some ls) outId
        = .ok (first.dims.map (fun d => d.name), ls))
    ∧ resolveDefaults (first :: rest) none outId
        = .ok (first.dims.map (fun d => d.name),
            first.dims.map
              (fun d => ⟨d.name, none, .dimRef (cloneSignal first none) d.name⟩)) := by
  constructor
  · intro ls
    rfl
  · simp [resolveDefaults, hind, cloneSignal]

/-- Witness for `c5_independent_identity`: one independent input with
dimensions `region` and `day`; the inferred spec is `[region, day]` and both
links are identity references to that input. -/
theorem c5_witness :
    resolveDefaults [⟨some "i1", false, [⟨"region", none⟩, ⟨"day", some "2020-01-01"⟩]⟩]
        none "out"
      = .ok (["region", "day"],
          [⟨"region", none, .dimRef
              (cloneSignal ⟨some "i1", false, [⟨"region", none⟩, ⟨"day", some "2020-01-01"⟩]⟩
                none) "region"⟩,
           ⟨"day", none, .dimRef
              (cloneSignal ⟨some "i1", false, [⟨"region", none⟩, ⟨"day", some "2020-01-01"⟩]⟩
                none) "day"⟩]) :=
  (c5_independent_identity ⟨some "i1", false, [⟨"region", none⟩, ⟨"day", some "2020-01-01"⟩]⟩
    [] "out" rfl).2

/-!
Session state protocol of the Glue-table branch of
`AWSApplication._load_external_data` (lines 1111-1170): `save_dev_state()`,
deep-copy of `_active_context`, creation of the transient node in the dev
context, `execute` (which launches/activates the app), then — in the
`finally` block on every exit path — best-effort artifact cleanup, restore of
the previous active context (re-`activate()`) or `pause()`, and
`load_dev_state()`.
-/

/-- A development/active context (its content is irrelevant to the protocol;
a list of node ids stands in for the DAG). -/
structure Ctx where
  nodes : List String
deriving DecidableEq

/-- The caller's session state: the activated context (if any), the
in-progress dev context, the single-slot saved dev state, and whether the
application is currently active (activated vs paused). -/
structure AppState where
  activeContext : Option Ctx
  devContext : Ctx
  savedDev : Option Ctx
  isActive : Bool
deriving DecidableEq

/-- `Application.save_dev_state()`: push the pending dev context into the
single snapshot slot. -/
def saveDevState (s : AppState) : AppState := { s with savedDev := some s.devContext }

/-- `Application.load_dev_state()`: pop the snapshot slot back into the dev
context. -/
def loadDevState (s : AppState) : AppState :=
  match s.savedDev with
  | some d => { s with devContext := d, savedDev := none }
  | none => s

/-- `Application.activate()`: deploy the dev context as the active context and
mark the application active. -/
def activateApp (s : AppState) : AppState :=
  { s with activeContext := some s.devContext, isActive := true }

/-- `Application.pause()`: deactivate the application. -/
def pauseApp (s : AppState) : AppState := { s with isActive := false }

/-- `Application.execute(temp_data)`: launches the app for the transient
node's execution (the code's comment on the `else` restore branch: "was not
active before, we have just launched it for this operation"). -/
def executeApp (s : AppState) : AppState := activateApp s

/-- Exit path of the `try` body: success, a compute failure raised by
`execute`, or a failure while reading/decoding the produced partitions. -/
inductive RunOutcome where
  | success
  | execFailure (msg : String)
  | decodeFailure (msg : String)
deriving DecidableEq

/-- Observable outcome of the Glue-table transient load: the caller's final
session state, the propagated result, and whether the manual-cleanup
diagnostic was logged. -/
structure GlueLoadResult where
  finalState : AppState
  result : Except String Unit
  cleanupDiag : Bool

/-- The `ValueError` message raised when the node is absent from the dev
context (step 1 of the protocol, before any state mutation). -/
def missingNodeMsg (dataId : String) : String :=
  "Data node " ++ dataId ++ " does not exist in the current development context"

/-- The restore step of the `finally` block: re-activate the saved active
context if one was pending, else pause the freshly launched session. -/
def glueRestore (activeState : Option Ctx) (s : AppState) : AppState :=
  match activeState with
  | some c => activateApp { s with devContext := c }
  | none => pauseApp s

/-- The Glue-table branch of `_load_external_data` as a state transformer over
the caller's session.  `createTemp` is the dev-context effect of creating the
transient derived node; `outcome` selects the exit path of the `try` body;
`cleanupFails` states whether `delete_internal` failed or raised (which is
caught and only logged).  The `finally` block — cleanup, context restore,
`load_dev_state` — runs on every one of these exit paths. -/
def loadExternalGlueTable (dataId : String) (nodeInDev : Bool) (createTemp : Ctx → Ctx)
    (outcome : RunOutcome) (cleanupFails : Bool) (s : AppState) : GlueLoadResult :=
  if nodeInDev then
    { finalState :=
        loadDevState
          (glueRestore (saveDevState s).activeContext
            (executeApp
              { saveDevState s with devContext := createTemp (saveDevState s).devContext })),
      result := match outcome with
        | .success => .ok ()
        | .execFailure m => .error m
        | .decodeFailure m => .error m,
      cleanupDiag := cleanupFails }
  else
    { finalState := s, result := .error (missingNodeMsg dataId), cleanupDiag := false }

/-- Claim C2.  For every Glue-table transient load, on every exit path —
success, execution or decode failure, with or without a cleanup failure — the
caller's session state after the call equals its state immediately before the
call: the dev context and the (initially empty) snapshot slot are restored,
the activation flag is as before (re-activated when an active context was
pending, paused when the session had been started just for this call), and
the previously active context, when there was one, is active again. -/
theorem c2_session_restored (dataId : String) (nodeInDev : Bool) (createTemp : Ctx → Ctx)
    (outcome : RunOutcome) (cleanupFails : Bool) (s : AppState)
    (hslot : s.savedDev = none) (hact : s.isActive = s.activeContext.isSome) :
    (loadExternalGlueTable dataId nodeInDev createTemp outcome cleanupFails s).finalState.devContext
        = s.devContext
    ∧ (loadExternalGlueTable dataId nodeInDev createTemp outcome cleanupFails s).finalState.savedDev
        = s.savedDev
    ∧ (loadExternalGlueTable dataId nodeInDev createTemp outcome cleanupFails s).finalState.isActive
        = s.isActive
    ∧ (s.activeContext.isSome = true →
        (loadExternalGlueTable dataId nodeInDev createTemp outcome cleanupFails
            s).finalState.activeContext = s.activeContext) := by
  cases nodeInDev with
  | false =>
    refine ⟨rfl, rfl, rfl, fun _ => rfl⟩
  | true =>
    cases hac : s.activeContext with
    | none =>
      rw [hac] at hact
      simp [loadExternalGlueTable, saveDevState, executeApp, activateApp, pauseApp,
        glueRestore, loadDevState, hslot, hac, hact]
    | some c =>
      rw [hac] at hact
      simp [loadExternalGlueTable, saveDevState, executeApp, activateApp, pauseApp,
        glueRestore, loadDevState, hslot, hac, hact]

/-- Witness for `c2_session_restored`: an initially activated session with an
active context, a successful transient run, no cleanup failure. -/
theorem c2_witness :
    (loadExternalGlueTable "x" true (fun c => c) RunOutcome.success false
        ⟨some ⟨["a"]⟩, ⟨["d"]⟩, none, true⟩).finalState.devContext = ⟨["d"]⟩
    ∧ (loadExternalGlueTable "x" true (fun c => c) RunOutcome.success false
        ⟨some ⟨["a"]⟩, ⟨["d"]⟩, none, true⟩).finalState.savedDev = none
    ∧ (loadExternalGlueTable "x" true (fun c => c) RunOutcome.success false
        ⟨some ⟨["a"]⟩, ⟨["d"]⟩, none, true⟩).finalState.isActive = true
    ∧ (loadExternalGlueTable "x" true (fun c => c) RunOutcome.success false
        ⟨some ⟨["a"]⟩, ⟨["d"]⟩, none, true⟩).finalState.activeContext = some ⟨["a"]⟩ := by
  have h := c2_session_restored "x" true (fun c => c) RunOutcome.success false
    ⟨some ⟨["a"]⟩, ⟨["d"]⟩, none, true⟩ rfl rfl
  exact ⟨h.1, h.2.1, h.2.2.1, h.2.2.2 rfl⟩

/-!
Node resolution (`ApplicationExt.data` / `timer` / `metric` / `alarm`, lines
268-311) and `ApplicationExt.__getitem__` for string ids (lines 313-368).  A
`MarshalerNode` is abstracted to its identity; each `get_*` query is passed
in as the list of marshalers it returned. -/

/-- A marshaler node, abstracted to an identifying string. -/
abbrev MNode := String

/-- The `ValueError` message of `ApplicationExt.data` on ambiguous resolution,
naming the id and the number of mapped entities. -/
def dataAmbiguousMsg (dataId : String) (n : Nat) : String :=
  "Cannot resolve DataNode! Application::data API cannot be used when the ID maps to multiple data nodes! Entity id: "
    ++ dataId ++ ", type: <data>, # of mapped entities: " ++ toString n

/-- `ApplicationExt.data`: returns the unique marshaler for the id, `None`
when there is none, and raises when the id maps to more than one data node. -/
def appData (marshalers : List MNode) (dataId : String) : Except String (Option MNode) :=
  match marshalers with
  | [] => .ok none
  | [m] => .ok (some m)
  | m1 :: m2 :: ms => .error (dataAmbiguousMsg dataId (m1 :: m2 :: ms).length)

/-- The `ValueError` message of `ApplicationExt.timer` on ambiguous resolution. -/
def timerAmbiguousMsg (timerId : String) (n : Nat) : String :=
  "Application::timer API cannot be used when the ID maps to multiple nodes of same type! Entity id: "
    ++ timerId ++ ", type: <timer>, # of mapped entities: " ++ toString n

/-- `ApplicationExt.timer`. -/
def appTimer (marshalers : List MNode) (timerId : String) : Except String (Option MNode) :=
  match marshalers with
  | [] => .ok none
  | [m] => .ok (some m)
  | m1 :: m2 :: ms => .error (timerAmbiguousMsg timerId (m1 :: m2 :: ms).length)

/-- The `ValueError` message of `ApplicationExt.metric` on ambiguous resolution. -/
def metricAmbiguousMsg (metricId : String) (n : Nat) : String :=
  "Application::metric API cannot be used when the ID (and sub_dimensions) map to multiple metric nodes! Metric id: "
    ++ metricId ++ ", type: <metric>, # of mapped entities: " ++ toString n

/-- `ApplicationExt.metric` (with default `sub_dimensions`). -/
def appMetric (marshalers : List MNode) (metricId : String) : Except String (Option MNode) :=
  match marshalers with
  | [] => .ok none
  | [m] => .ok (some m)
  | m1 :: m2 :: ms => .error (metricAmbiguousMsg metricId (m1 :: m2 :: ms).length)

/-- The `ValueError` message of `ApplicationExt.alarm` on ambiguous resolution. -/
def alarmAmbiguousMsg (alarmId : String) (n : Nat) : String :=
  "Application::alarm API cannot be used when the ID (and alarm_type) map to multiple alarm nodes! Alarm id: "
    ++ alarmId ++ ", type: <alarm>, # of mapped entities: " ++ toString n

/-- `ApplicationExt.alarm` (with default `alarm_type`). -/
def appAlarm (marshalers : List MNode) (alarmId : String) : Except String (Option MNode) :=
  match marshalers with
  | [] => .ok none
  | [m] => .ok (some m)
  | m1 :: m2 :: ms => .error (alarmAmbiguousMsg alarmId (m1 :: m2 :: ms).length)

/-- The final `ValueError` message of `__getitem__` when no node type matched
the id. -/
def notFoundMsg (appId entityId : String) : String :=
  "Cannot find any active node with ID " ++ entityId ++ " within the application " ++ appId

/-- `ApplicationExt.__getitem__` for a string id: data, then timer, then
metric, then alarm; the fall-through raises, so the Python `None` return is
unreachable (result type kept as `Option` to state exactly that). -/
def getItemStr (dataMs timerMs metricMs alarmMs : List MNode) (appId entityId : String) :
    Except String (Option MNode) :=
  match appData dataMs entityId with
  | .error e => .error e
  | .ok (some m) => .ok (some m)
  | .ok none =>
    match appTimer timerMs entityId with
    | .error e => .error e
    | .ok (some m) => .ok (some m)
    | .ok none =>
      match appMetric metricMs entityId with
      | .error e => .error e
      | .ok (some m) => .ok (some m)
      | .ok none =>
        match appAlarm alarmMs entityId with
        | .error e => .error e
        | .ok (some m) => .ok (some m)
        | .ok none => .error (notFoundMsg appId entityId)

/-- Claim C9.  `Application::data`: an id mapping to more than one data node
raises a `ValueError` whose message is built from the id and the number of
mapped entities (never resolved silently); an id mapping to exactly one node
returns that node. -/
theorem c9_data_resolution (marshalers : List MNode) (dataId : String) :
    (1 < marshalers.length →
      appData marshalers dataId = .error (dataAmbiguousMsg dataId marshalers.length)
      ∧ ∃ pre mid, dataAmbiguousMsg dataId marshalers.length
          = pre ++ dataId ++ mid ++ toString marshalers.length)
    ∧ ∀ m, marshalers = [m] → appData marshalers dataId = .ok (some m) := by
  constructor
  · intro h
    constructor
    · match marshalers, h with
      | m1 :: m2 :: ms, _ => rfl
    · exact ⟨"Cannot resolve DataNode! Application::data API cannot be used when the ID maps to multiple data nodes! Entity id: ",
        ", type: <data>, # of mapped entities: ", rfl⟩
  · intro m hm
    subst hm
    rfl

/-- Witness for `c9_data_resolution`: two data nodes mapped to one id. -/
theorem c9_witness :
    appData ["n1", "n2"] "dup" = .error (dataAmbiguousMsg "dup" 2) :=
  ((c9_data_resolution ["n1", "n2"] "dup").1 (by decide)).1

/-- Claim C10.  `__getitem__` on a string id consults data, then timer, then
metric, then alarm nodes in that fixed order, returns the first match, raises
a `ValueError` when nothing matches, and never returns `None`. -/
theorem c10_getitem_order (dataMs timerMs metricMs alarmMs : List MNode)
    (appId entityId : String) :
    (∀ m, appData dataMs entityId = .ok (some m) →
        getItemStr dataMs timerMs metricMs alarmMs appId entityId = .ok (some m))
    ∧ (∀ m, appData dataMs entityId = .ok none →
        appTimer timerMs entityId = .ok (some m) →
        getItemStr dataMs timerMs metricMs alarmMs appId entityId = .ok (some m))
    ∧ (∀ m, appData dataMs entityId = .ok none →
        appTimer timerMs entityId = .ok none →
        appMetric metricMs entityId = .ok (some m) →
        getItemStr dataMs timerMs metricMs alarmMs appId entityId = .ok (some m))
    ∧ (∀ m, appData dataMs entityId = .ok none →
        appTimer timerMs entityId = .ok none →
        appMetric metricMs entityId = .ok none →
        appAlarm alarmMs entityId = .ok (some m) →
        getItemStr dataMs timerMs metricMs alarmMs appId entityId = .ok (some m))
    ∧ (appData dataMs entityId = .ok none →
        appTimer timerMs entityId = .ok none →
        appMetric metricMs entityId = .ok none →
        appAlarm alarmMs entityId = .ok none →
        getItemStr dataMs timerMs metricMs alarmMs appId entityId
          = .error (notFoundMsg appId entityId))
    ∧ getItemStr dataMs timerMs metricMs alarmMs appId entityId ≠ .ok none := by
  refine ⟨?_, ?_, ?_, ?_, ?_, ?_⟩
  · intro m h
    simp [getItemStr, h]
  · intro m h1 h2
    simp [getItemStr, h1, h2]
  · intro m h1 h2 h3
    simp [getItemStr, h1, h2, h3]
  · intro m h1 h2 h3 h4
    simp [getItemStr, h1, h2, h3, h4]
  · intro h1 h2 h3 h4
    simp [getItemStr, h1, h2, h3, h4]
  · cases hd : appData dataMs entityId with
    | error e => simp [getItemStr, hd]
    | ok o1 =>
      cases o1 with
      | some m => simp [getItemStr, hd]
      | none =>
        cases ht : appTimer timerMs entityId with
        | error e => simp [getItemStr, hd, ht]
        | ok o2 =>
          cases o2 with
          | some m => simp [getItemStr, hd, ht]
          | none =>
            cases hm : appMetric metricMs entityId with
            | error e => simp [getItemStr, hd, ht, hm]
            | ok o3 =>
              cases o3 with
              | some m => simp [getItemStr, hd, ht, hm]
              | none =>
                cases ha : appAlarm alarmMs entityId with
                | error e => simp [getItemStr, hd, ht, hm, ha]
                | ok o4 =>
                  cases o4 with
                  | some m => simp [getItemStr, hd, ht, hm, ha]
                  | none => simp [getItemStr, hd, ht, hm, ha]

/-- Witness for `c10_getitem_order`: no data node, one timer node; the timer
match is returned. -/
theorem c10_witness :
    getItemStr [] ["t1"] [] [] "app" "t1" = .ok (some "t1") :=
  (c10_getitem_order [] ["t1"] [] [] "app" "t1").2.1 "t1" rfl rfl

/-!
Validation and dispatch phase of `ApplicationExt.load_data` (lines 438-496),
composed with the decode loops above.  A call is summed up by `LoadArgs`; the
generator's observable behaviour is the list of yielded items (in order,
`none` modelling a Python `None` yield) followed by an optional raised
exception, plus the `logger.critical` diagnostics.  The Spark branch drives
an external Spark session, so it is kept abstract as the `sparkLoad`
parameter every theorem quantifies over. -/

/-- The `limit` argument as received from Python: an `int` or some other
value. -/
inductive PyLimitArg where
  | intVal (n : Int)
  | nonInt
deriving DecidableEq

/-- The bound node's kind: `InternalDataNode`, `ExternalDataNode`, or any
other (unsupported) node type. -/
inductive LoadNodeKind where
  | internalNode
  | externalNode
  | unsupportedNode
deriving DecidableEq

/-- `DataFrameFormat`. -/
inductive TargetFormat where
  | pandasFmt
  | sparkFmt
  | originalFmt
deriving DecidableEq

/-- The `format` argument as received: a resolvable `DataFrameFormat` name or
a string the enum constructor rejects with a `ValueError`. -/
inductive FormatArg where
  | validFmt (f : TargetFormat)
  | invalidFmt (s : String)
deriving DecidableEq

/-- One `load_data` call: the arguments plus the observations of the
collaborators it consumes (output reference type check, poll result, the
dataset access-spec fields and the partitions storage returns). -/
structure LoadArgs where
  outputTypeOk : Bool
  limit : Option PyLimitArg
  format : Option FormatArg
  nodeKind : LoadNodeKind
  pollSucceeds : Bool
  dataId : String
  dimensionValues : String
  filterIsMaterial : Bool
  dataFormatIsCsv : Bool
  headerExists : Bool
  iterate : Bool
  partitions : List (List Row)

/-- Observable behaviour of one `load_data` call: items yielded before any
exception (a `none` item models `yield None`), diagnostics logged, and the
exception raised, if any. -/
structure LoadOutput where
  frames : List (Option (List Row))
  diags : List String
  err : Option String

/-- The `ValueError` for an output argument of the wrong type. -/
def wrongInputTypeMsg : String :=
  "Wrong input type for Application::load_data(Union[MarshalingView, MarshalerNode])."

/-- The `ValueError` for a `limit` that is not a positive `int`. -/
def limitErrMsg : String :=
  "Please provide a positive value of type int as limit parameter to Application::load_data API"

/-- The `ValueError` of `DataFrameFormat(format.upper())` on an unknown name. -/
def formatErrMsg (s : String) : String := s ++ " is not a valid DataFrameFormat"

/-- The `ValueError` for an unsupported bound-node type. -/
def nodeTypeErrMsg : String := "Node type is not supported for Application::load_data API!"

/-- The `ValueError` for an external node whose filter is not fully
materialized. -/
def materializedViewErrMsg : String := "Can load materialized data nodes or views only!"

/-- The existence-check diagnostic logged for internal nodes, naming the node
and the dimension values. -/
def checkingDiag (dataId dims : String) : String :=
  "Checking the existence of output for " ++ dataId ++ " on dimension values: " ++ dims

/-- The diagnostic logged when the poll finds no materialized output, naming
the node and the dimension values. -/
def missingOutputDiag (dataId dims : String) : String :=
  "Input " ++ dataId ++ " does not have the output for the dimension values: " ++ dims

/-- The diagnostic pair logged before the raw fallback iteration. -/
def unsupportedFormatDiag : String :=
  "Transformation for data format is not supported. Defaulting to limitless iteration over raw partition data."

/-- The validation `limit is not None and (not isinstance(limit, int) or
limit <= 0)` (line 447), as the predicate for the passing values. -/
def validLimit : Option PyLimitArg → Bool
  | none => true
  | some (.intVal n) => decide (0 < n)
  | some .nonInt => false

/-- `if format: format = DataFrameFormat(format.upper())` (lines 450-451). -/
def resolveFormat : Option FormatArg → Except String (Option TargetFormat)
  | none => .ok none
  | some (.validFmt f) => .ok (some f)
  | some (.invalidFmt s) => .error (formatErrMsg s)

/-- A validated limit handed to the decode loops. -/
def limitToNat : Option PyLimitArg → Option Nat
  | some (.intVal n) => some n.toNat
  | _ => none

/-- Decode dispatch (lines 497, 553, 639, 680): Pandas branch, Spark branch
(abstract), raw CSV branch, or the raw fallback that yields the partitions
unchanged with a diagnostic. -/
def decodeFrames (sparkLoad : List (List Row) → Except String (List (List Row)))
    (fmt : Option TargetFormat) (a : LoadArgs) :
    List (Option (List Row)) × List String × Option String :=
  match fmt with
  | some .pandasFmt =>
    match loadPandasData a.dataFormatIsCsv a.partitions (limitToNat a.limit) a.iterate with
    | .ok fs => (fs.map some, [], none)
    | .error e => ([], [], some e)
  | some .sparkFmt =>
    match sparkLoad a.partitions with
    | .ok fs => (fs.map some, [], none)
    | .error e => ([], [], some e)
  | some .originalFmt | none =>
    if a.dataFormatIsCsv then
      match loadCsvData a.partitions (limitToNat a.limit) a.headerExists a.iterate with
      | .ok fs => (fs.map some, [], none)
      | .error e => ([], [], some e)
    else (a.partitions.map some, [unsupportedFormatDiag], none)

/-- `ApplicationExt.load_data`: output-type check, limit validation, format
resolution, node-kind dispatch (internal poll with its `yield None` on a
missing output and no early return; external materialization check), then
decode. -/
def loadData (sparkLoad : List (List Row) → Except String (List (List Row)))
    (a : LoadArgs) : LoadOutput :=
  if a.outputTypeOk = false then ⟨[], [], some wrongInputTypeMsg⟩
  else if validLimit a.limit = false then ⟨[], [], some limitErrMsg⟩
  else
    match resolveFormat a.format with
    | .error e => ⟨[], [], some e⟩
    | .ok fmt =>
      match a.nodeKind with
      | .internalNode =>
        if a.pollSucceeds then
          ⟨(decodeFrames sparkLoad fmt a).1,
           checkingDiag a.dataId a.dimensionValues :: (decodeFrames sparkLoad fmt a).2.1,
           (decodeFrames sparkLoad fmt a).2.2⟩
        else
          ⟨none :: (decodeFrames sparkLoad fmt a).1,
           checkingDiag a.dataId a.dimensionValues
             :: missingOutputDiag a.dataId a.dimensionValues
             :: (decodeFrames sparkLoad fmt a).2.1,
           (decodeFrames sparkLoad fmt a).2.2⟩
      | .externalNode =>
        if a.filterIsMaterial = false then ⟨[], [], some materializedViewErrMsg⟩
        else
          ⟨(decodeFrames sparkLoad fmt a).1,
           (decodeFrames sparkLoad fmt a).2.1,
           (decodeFrames sparkLoad fmt a).2.2⟩
      | .unsupportedNode => ⟨[], [], some nodeTypeErrMsg⟩

/-- Claim C8.  A `load_data` call (with an output reference of an accepted
type, which Python checks first) whose `limit` is given and is not a positive
integer raises the limit validation `ValueError` immediately: nothing is
yielded, and no partition is read — the result does not depend on the
partition contents at all. -/
theorem c8_limit_validation (sparkLoad : List (List Row) → Except String (List (List Row)))
    (a : LoadArgs) (otherParts : List (List Row))
    (hok : a.outputTypeOk = true)
    (hbad : (∃ n : Int, n ≤ 0 ∧ a.limit = some (.intVal n)) ∨ a.limit = some .nonInt) :
    loadData sparkLoad a = ⟨[], [], some limitErrMsg⟩
    ∧ loadData sparkLoad a = loadData sparkLoad { a with partitions := otherParts } := by
  have hv : validLimit a.limit = false := by
    rcases hbad with ⟨n, hn, hl⟩ | hl
    · rw [hl]
      simp [validLimit]
      omega
    · rw [hl]
      rfl
  constructor
  · simp [loadData, hok, hv]
  · simp [loadData, hok, hv]

/-- Witness for `c8_limit_validation`: `limit = 0` on an internal node with a
nonempty partition list. -/
theorem c8_witness :
    loadData (fun ps => Except.ok ps)
        ⟨true, some (.intVal 0), none, .internalNode, true, "d", "v",
         true, true, false, false, [[["x"]]]⟩
      = ⟨[], [], some limitErrMsg⟩ :=
  (c8_limit_validation (fun ps => Except.ok ps)
    ⟨true, some (.intVal 0), none, .internalNode, true, "d", "v",
     true, true, false, false, [[["x"]]]⟩
    [] rfl (Or.inl ⟨0, by decide, rfl⟩)).1

/-- Claim C7.  A validated `load_data` call on an internal node whose target
output partitions are absent (the poll returns no materialized path) yields a
`None` result as its first item — no exception is raised in its place — and
logs the diagnostic naming the node id and the dimension values. -/
theorem c7_internal_absent (sparkLoad : List (List Row) → Except String (List (List Row)))
    (a : LoadArgs)
    (hok : a.outputTypeOk = true)
    (hlim : validLimit a.limit = true)
    (hfmt : ∀ s, a.format ≠ some (.invalidFmt s))
    (hint : a.nodeKind = .internalNode)
    (hpoll : a.pollSucceeds = false) :
    (loadData sparkLoad a).frames.head? = some none
    ∧ missingOutputDiag a.dataId a.dimensionValues ∈ (loadData sparkLoad a).diags := by
  obtain ⟨fmt, hfm⟩ : ∃ fmt, resolveFormat a.format = .ok fmt := by
    cases hf : a.format with
    | none => exact ⟨none, rfl⟩
    | some fa =>
      cases fa with
      | validFmt f => exact ⟨some f, rfl⟩
      | invalidFmt s => exact absurd hf (hfmt s)
  constructor
  · simp [loadData, hok, hlim, hfm, hint, hpoll]
  · simp [loadData, hok, hlim, hfm, hint, hpoll]

/-- Witness for `c7_internal_absent`: an internal node, empty storage, no
limit, Parquet-style data format, merged mode. -/
theorem c7_witness :
    (loadData (fun ps => Except.ok ps)
        ⟨true, none, none, .internalNode, false, "node_x", "dims",
         true, false, false, false, []⟩).frames.head? = some none
    ∧ missingOutputDiag "node_x" "dims"
        ∈ (loadData (fun ps => Except.ok ps)
            ⟨true, none, none, .internalNode, false, "node_x", "dims",
             true, false, false, false, []⟩).diags :=
  c7_internal_absent (fun ps => Except.ok ps)
    ⟨true, none, none, .internalNode, false, "node_x", "dims",
     true, false, false, false, []⟩
    rfl rfl (fun _ h => nomatch h) rfl rfl

end Rheoceros
